import Mathlib

/-!
Verification of the cov2html coverage-report generator (src/coverage.rs,
src/main.rs) against its natural-language specification.

The Rust code is shallowly embedded: strings are represented as `List Char`
(`Str`), Rust `HashMap`/`HashSet` values as Lean functions into `Finset` or as
explicitly enumerated lists (the enumeration order standing for the map's or
set's iteration order, which Rust leaves unspecified), `f64` percentage
arithmetic as exact rational (`ℚ`) arithmetic, and filesystem access as an
explicit environment `Str → Option Str`.  Fallible steps return `Option`;
process-level outcomes (I/O error propagation vs. panic) are modelled by an
explicit outcome type.
-/

/-- Strings of the embedded program: Rust `String`/`&str` as a list of
characters. -/
abbrev Str := List Char

/-- Rust `s.split(sep).collect::<Vec<_>>()` for a one-character separator
(also the splitting underlying `str::lines`).  `splitOnChar sep l` always
returns a non-empty list; splitting the empty string yields `[[]]`, matching
Rust's `"".split(sep)` yielding one empty segment. -/
def splitOnChar (sep : Char) (l : Str) : List Str :=
  l.foldr
    (fun c acc =>
      match acc with
      | [] => [[c]]
      | h :: t => if c = sep then [] :: h :: t else (c :: h) :: t)
    [[]]

/-- Rust `str::trim` (whitespace stripped from both ends).  Lean's
`Char.isWhitespace` (space, tab, CR, LF) stands in for Rust's Unicode
whitespace predicate; the inputs of interest are ASCII. -/
def trimStr (l : Str) : Str :=
  ((l.dropWhile Char.isWhitespace).reverse.dropWhile Char.isWhitespace).reverse

/-- Decimal value of a digit string. -/
def digitsToNat (l : Str) : ℕ :=
  l.foldl (fun a c => a * 10 + (c.toNat - 48)) 0

/-- Digit-run part of Rust `str::parse::<u32>`: one or more decimal digits
whose value is below `2^32`; anything else is an error (`none`). -/
def parseU32Digits (ds : Str) : Option ℕ :=
  if ds ≠ [] ∧ ds.all Char.isDigit then
    if digitsToNat ds < 2 ^ 32 then some (digitsToNat ds) else none
  else none

/-- Rust `str::parse::<u32>`: an optional leading `+`, then a digit run. -/
def parseU32 (l : Str) : Option ℕ :=
  match l with
  | '+' :: rest => parseU32Digits rest
  | _ => parseU32Digits l

/-- One iteration of the loop of `parse_coverage_file`
(src/coverage.rs:31-61): skip blank lines; split on `':'`; require exactly
two segments; parse the trimmed second segment as `u32`; on success yield
the `(path, line_number)` fact, otherwise (a warning is printed and) the
line contributes nothing. -/
def parseLine (l : Str) : Option (Str × ℕ) :=
  if trimStr l = [] then none
  else
    match splitOnChar ':' l with
    | [p, numPart] =>
      match parseU32 (trimStr numPart) with
      | some n => some (p, n)
      | none => none
    | _ => none

/-- The coverage record: Rust `HashMap<String, HashSet<u32>>` as a total
function from path to the (finite) set of recorded line numbers, empty by
default. -/
def emptyRecord : Str → Finset ℕ := fun _ => ∅

/-- `coverage_map.entry(rel_path).or_insert_with(HashSet::new).insert(line_number)`
(src/coverage.rs:57-60). -/
def recordInsert (m : Str → Finset ℕ) (p : Str) (n : ℕ) : Str → Finset ℕ :=
  fun q => if q = p then insert n (m p) else m q

/-- `parse_coverage_file` (src/coverage.rs:26-64), given the lines read from
the coverage file: fold every line through `parseLine`, accumulating facts
into the record.  Reading itself is the only fallible part of the original
and is outside this function (its caller supplies the lines). -/
def parse_coverage_file (ls : List Str) : Str → Finset ℕ :=
  ls.foldl
    (fun m l =>
      match parseLine l with
      | some (p, n) => recordInsert m p n
      | none => m)
    emptyRecord

/-- Convenience: a Lean string literal as an embedded `Str`. -/
def toL (s : String) : Str := s.data

/-- Strip one trailing carriage return, as Rust `str::lines` does on each
line. -/
def stripCr (l : Str) : Str :=
  if l.getLast? = some '\r' then l.dropLast else l

/-- Rust `str::lines()` collected to a list: newline-delimited lines, no
final empty line when the text ends with `'\n'` (or is empty), a trailing
`'\r'` stripped from each line.  `source_content.lines().count()` at
src/coverage.rs:96 is the length of this list. -/
def rustLines (l : Str) : List Str :=
  if l = [] then []
  else
    (if l.getLast? = some '\n' then (splitOnChar '\n' l).dropLast
     else splitOnChar '\n' l).map stripCr

/-- The per-file tuple pushed onto `file_data` at src/coverage.rs:117-124:
path, source content, covered-line set, covered count, total line count and
coverage percentage.  `f64` percentages are modelled exactly in `ℚ`. -/
structure FileStat where
  path : Str
  content : Str
  covered : Finset ℕ
  covered_count : ℕ
  total_lines : ℕ
  coverage_pct : ℚ
deriving DecidableEq

/-- Per-file processing of `generate_combined_html` (src/coverage.rs:95-124):
`total_lines` from `lines().count()`, `covered_count` from the set's size,
and `coverage_pct = (covered as f64 / total as f64) * 100.0` when
`total > 0`, else `0.0`. -/
def mkFileStat (path content : Str) (covered : Finset ℕ) : FileStat :=
  { path := path
    content := content
    covered := covered
    covered_count := covered.card
    total_lines := (rustLines content).length
    coverage_pct :=
      if 0 < (rustLines content).length then
        ((covered.card : ℚ) / ((rustLines content).length : ℚ)) * 100
      else 0 }

/-- `get_coverage_class` (src/coverage.rs:709-717), the helper used both for
the global summary (line 146) and for every per-file badge (line 479);
`f64` comparison against the literals `80.0` and `50.0` modelled in `ℚ`. -/
def get_coverage_class (percentage : ℚ) : String :=
  if percentage ≥ 80 then "coverage-good"
  else if percentage ≥ 50 then "coverage-medium"
  else "coverage-bad"

/-- `getCoverageClass` of the generated JavaScript (src/coverage.rs:314-322),
used by the viewer for each per-file header badge. -/
def getCoverageClassJS (percentage : ℚ) : String :=
  if percentage ≥ 80 then "coverage-good"
  else if percentage ≥ 50 then "coverage-medium"
  else "coverage-bad"

/-- `path.split('/').last().unwrap_or(path)` (src/coverage.rs:441): the last
`/`-separated segment of a path. -/
def lastSegment (p : Str) : Str :=
  ((splitOnChar '/' p).getLast?).getD p

/-- The directory display name computed at src/coverage.rs:430-434: the
path itself at the root, otherwise the path with the current prefix and its
trailing `/` removed. -/
def dirNameAt (cp p : Str) : Str :=
  if cp = [] then p else p.drop (cp.length + 1)

/-- The directory children extracted by the first partition of
`render_combined_tree` (src/coverage.rs:427-438): entries with `total = 0`,
kept only when the remaining name contains no `/`, in input order. -/
def dirNamesOf (cp : Str) (children : List (Str × ℕ × ℕ)) : List Str :=
  children.filterMap (fun c =>
    if c.2.2 = 0 then
      if (dirNameAt cp c.1).contains '/' then none else some (dirNameAt cp c.1)
    else none)

/-- The file children extracted by the second partition of
`render_combined_tree` (src/coverage.rs:439-443): entries with `total ≠ 0`,
as `(name, covered, total)` with the name the path's last segment, in input
order.  (The enumeration index paired with each file in the Rust code is
discarded before rendering.) -/
def fileEntriesOf (children : List (Str × ℕ × ℕ)) : List (Str × ℕ × ℕ) :=
  children.filterMap (fun c =>
    if c.2.2 = 0 then none else some (lastSegment c.1, c.2.1, c.2.2))

/-- The comparator of `files.sort_by(|a, b| a.1.cmp(b.1))`
(src/coverage.rs:447): order file children by name only. -/
abbrev fileLe (a b : Str × ℕ × ℕ) : Prop := a.1 ≤ b.1

instance : DecidableRel fileLe :=
  fun a b => inferInstanceAs (Decidable (a.1 ≤ b.1))

instance : IsTotal (Str × ℕ × ℕ) fileLe :=
  ⟨fun a b => le_total a.1 b.1⟩

instance : IsTrans (Str × ℕ × ℕ) fileLe :=
  ⟨fun _ _ _ h₁ h₂ => le_trans h₁ h₂⟩

/-- The order in which `render_combined_tree` (src/coverage.rs:416-495)
emits the children of one directory node: sorted directories first
(`dirs.sort()`), then files sorted by name, each rendered from the sorted
vectors.  `Sum.inl` is a rendered directory (with its subtree), `Sum.inr` a
rendered file entry. -/
def renderOrder (cp : Str) (children : List (Str × ℕ × ℕ)) :
    List (Str ⊕ (Str × ℕ × ℕ)) :=
  ((dirNamesOf cp children).insertionSort (· ≤ ·)).map Sum.inl ++
  ((fileEntriesOf children).insertionSort fileLe).map Sum.inr

/-- `format!("{}/{}", kernel_src_dir, file_path)` (src/coverage.rs:78). -/
def fullPath (root p : Str) : Str := root ++ '/' :: p

/-- The aggregation loop of `generate_combined_html` (src/coverage.rs:74-125)
over the coverage map's entries (in iteration order), against a filesystem
`fs` mapping a resolved path to its content when the file exists and is
readable (`none` covers both the existence check at line 81 and the read
failure at line 89, which the code treats alike: warn and `continue`).
Returns the `file_data` vector and the running `(total_covered,
total_lines)` accumulators. -/
def processFiles (fs : Str → Option Str) (root : Str)
    (entries : List (Str × Finset ℕ)) : List FileStat × ℕ × ℕ :=
  entries.foldl
    (fun acc e =>
      match fs (fullPath root e.1) with
      | none => acc
      | some content =>
        let st := mkFileStat e.1 content e.2
        (acc.1 ++ [st], acc.2.1 + st.covered_count, acc.2.2 + st.total_lines))
    ([], 0, 0)

/-- Fuel-driven engine for Rust `str::replace`: scan left to right, and at
each position either consume a non-overlapping occurrence of the (nonempty)
pattern, emitting the replacement, or copy one character.  `fuel = l.length`
always suffices. -/
def replaceFuel (fuel : ℕ) (pat rep l : Str) : Str :=
  match fuel with
  | 0 => l
  | fuel + 1 =>
    match l with
    | [] => []
    | c :: rest =>
      if pat.isPrefixOf (c :: rest) then
        rep ++ replaceFuel fuel pat rep ((c :: rest).drop pat.length)
      else c :: replaceFuel fuel pat rep rest

/-- Rust `str::replace(pat, rep)` for a nonempty pattern (all patterns used
by the program are nonempty; an empty pattern is returned unchanged to keep
the function total). -/
def rustReplace (l pat rep : Str) : Str :=
  if pat = [] then l else replaceFuel l.length pat rep l

/-- The only transformation applied to a source line before it is embedded
in the output document (src/coverage.rs:196-198):
`line.replace("\\", "\\\\").replace("\"", "\\\"")` — backslash and
double-quote escaping for the JavaScript string literal.  The code comment
at line 195 explicitly skips HTML-escaping here. -/
def escapeForEmbedding (l : Str) : Str :=
  rustReplace (rustReplace l ['\\'] ['\\', '\\']) ['"'] ['\\', '"']

/-- The entity-encoding step of the generated `displaySourceSafely`
(src/coverage.rs:218-223), which runs in the viewer after the document has
already been parsed: `&`, `<`, `>`, `"`, `'` to HTML entities, in that
order. -/
def displaySourceEncode (l : Str) : Str :=
  rustReplace
    (rustReplace
      (rustReplace
        (rustReplace
          (rustReplace l ['&'] (toL "&amp;"))
          ['<'] (toL "&lt;"))
        ['>'] (toL "&gt;"))
      ['"'] (toL "&quot;"))
    ['\''] (toL "&#39;")

/-- Environment of one run, as the failure modes the code distinguishes:
whether the work directory exists or can be created (src/coverage.rs:9-11),
the coverage file's lines when it can be opened and read
(src/coverage.rs:27-32), whether `File::create` of the output artifact
succeeds (src/coverage.rs:129), and whether writes to it succeed
(src/coverage.rs:132 onward). -/
structure RunEnv where
  workDirOk : Bool
  coverageLines : Option (List Str)
  outputCreatable : Bool
  outputWritable : Bool

/-- Process-level outcome of a run: normal completion with the report path,
an `io::Result` error value returned to the caller, or a panic (`expect`)
aborting the process. -/
inductive RunOutcome where
  | ok (htmlPath : Str)
  | ioError
  | panicked (msg : String)
deriving DecidableEq

/-- The panic behaviour of `generate_combined_html` (src/coverage.rs:67-352)
with respect to the output artifact: `File::create(..).expect("Failed to
create combined HTML file")` (line 129) panics when creation fails, and the
first write (`write_combined_html_head`, line 132-133) panics with
"Failed to write HTML head" when writing fails; every later write also
uses `expect`.  Returns the panic message, or `none` when the artifact is
produced. -/
def generate_combined_html_outcome (env : RunEnv) : Option String :=
  if env.outputCreatable = false then some "Failed to create combined HTML file"
  else if env.outputWritable = false then some "Failed to write HTML head"
  else none

/-- `generate_report_from_file` (src/coverage.rs:7-23): work-directory
creation failure and coverage-file read failure are propagated with `?` as
`io::Result` errors; then `generate_combined_html` is called (its panics
abort the process); on completion the report path is returned. -/
def generate_report_from_file (env : RunEnv) (workDir : Str) : RunOutcome :=
  if env.workDirOk = false then .ioError
  else
    match env.coverageLines with
    | none => .ioError
    | some _ =>
      match generate_combined_html_outcome env with
      | some msg => .panicked msg
      | none => .ok (workDir ++ toL "/coverage_report.html")

/-- `main` (src/main.rs:20-27) prints a diagnostic exactly when an `Err`
value reaches its `match`; a panic never reaches it. -/
def mainPrintsDiagnostic : RunOutcome → Bool
  | .ioError => true
  | _ => false

/-- A panic aborts the process before returning to `main`'s `match`. -/
def processPanics : RunOutcome → Bool
  | .panicked _ => true
  | _ => false

/-- `file_path.replace("/", "_").replace(".", "_")` (src/coverage.rs:169,
186, 487): the sanitized identifier keying the per-file containers and data
blocks. -/
def fileId (p : Str) : Str :=
  p.map (fun c => if c = '/' then '_' else if c = '.' then '_' else c)

/-- One entry of the emitted `fileData` JavaScript object
(src/coverage.rs:185-209): sanitized id, display path, the covered-line
array in set-iteration order, total line count, covered count and the
percentage. -/
structure FileBlock where
  fileId : Str
  path : Str
  covered : List ℕ
  totalLines : ℕ
  coveredCount : ℕ
  coveragePct : ℚ
deriving DecidableEq

/-- Build one `fileData` block from a path, its source content and the
covered-line set presented in its iteration order (`coveredList`, distinct
elements): counts and percentage as at src/coverage.rs:95-124, the covered
array as serialized at lines 189-192. -/
def mkFileBlock (path content : Str) (coveredList : List ℕ) : FileBlock :=
  { fileId := fileId path
    path := path
    covered := coveredList
    totalLines := (rustLines content).length
    coveredCount := coveredList.dedup.length
    coveragePct :=
      if 0 < (rustLines content).length then
        ((coveredList.dedup.length : ℚ) / ((rustLines content).length : ℚ)) * 100
      else 0 }

/-- The order-sensitive skeleton of the output document of
`generate_combined_html` (src/coverage.rs:67-352): the global totals and
summary figure with its tier class (lines 142-150), the hidden per-file
container ids in coverage-map iteration order (lines 168-174), and the
`fileData` blocks in the same iteration order (lines 185-209).  The sidebar
tree rendered between summary and containers is covered by `renderOrder`
(its ordering is pinned by sorting); two output documents are byte-identical
exactly when their skeletons and tree sections agree. -/
structure Artifact where
  totalCovered : ℕ
  totalLines : ℕ
  overallPct : ℚ
  overallClass : String
  containerIds : List Str
  blocks : List FileBlock
deriving DecidableEq

/-- `generate_combined_html` down to the order-sensitive skeleton, taking
the coverage map as its entry list in iteration order, each covered set as
its enumeration in iteration order, and the filesystem as in
`processFiles`. -/
def generateArtifact (fs : Str → Option Str) (root : Str)
    (entries : List (Str × List ℕ)) : Artifact :=
  let processed := entries.filterMap
    (fun e => (fs (fullPath root e.1)).map (fun content => (e.1, content, e.2)))
  let blocks := processed.map (fun pe => mkFileBlock pe.1 pe.2.1 pe.2.2)
  let tc := (blocks.map FileBlock.coveredCount).sum
  let tl := (blocks.map FileBlock.totalLines).sum
  { totalCovered := tc
    totalLines := tl
    overallPct := if 0 < tl then ((tc : ℚ) / (tl : ℚ)) * 100 else 0
    overallClass :=
      get_coverage_class (if 0 < tl then ((tc : ℚ) / (tl : ℚ)) * 100 else 0)
    containerIds := blocks.map FileBlock.fileId
    blocks := blocks }

/-- The filesystem of the C9 counterexample: one two-line source file. -/
def oneFileFs : Str → Option Str :=
  fun q => if q = toL "r/a.c" then some (toL "x\ny") else none

lemma mem_foldl_record (ls : List Str) (m : Str → Finset ℕ) (p : Str) (n : ℕ) :
    n ∈ (ls.foldl
      (fun m l =>
        match parseLine l with
        | some (p, n) => recordInsert m p n
        | none => m)
      m) p ↔ n ∈ m p ∨ ∃ l ∈ ls, parseLine l = some (p, n) := by
  induction ls generalizing m with
  | nil => simp
  | cons l t ih =>
    rw [List.foldl_cons, ih]
    rcases h : parseLine l with _ | ⟨q, k⟩
    · simp [h]
    · show n ∈ (if p = q then insert k (m q) else m p) ∨ _ ↔ _
      by_cases hpq : p = q
      · subst hpq
        rw [if_pos rfl]
        simp only [Finset.mem_insert, List.mem_cons]
        constructor
        · rintro ((rfl | hn) | ⟨l', hl', he⟩)
          · exact Or.inr ⟨l, Or.inl rfl, by rw [h]⟩
          · exact Or.inl hn
          · exact Or.inr ⟨l', Or.inr hl', he⟩
        · rintro (hn | ⟨l', rfl | hl', he⟩)
          · exact Or.inl (Or.inr hn)
          · rw [h] at he
            simp only [Option.some.injEq, Prod.mk.injEq] at he
            exact Or.inl (Or.inl he.2.symm)
          · exact Or.inr ⟨l', hl', he⟩
      · rw [if_neg hpq]
        simp only [List.mem_cons]
        constructor
        · rintro (hn | ⟨l', hl', he⟩)
          · exact Or.inl hn
          · exact Or.inr ⟨l', Or.inr hl', he⟩
        · rintro (hn | ⟨l', rfl | hl', he⟩)
          · exact Or.inl hn
          · rw [h] at he
            simp only [Option.some.injEq, Prod.mk.injEq] at he
            exact absurd he.1.symm hpq
          · exact Or.inr ⟨l', hl', he⟩

/-- Characterization of the parsed record: a fact is in the record exactly
when some input line parses to it. -/
lemma mem_parse_coverage_file (ls : List Str) (p : Str) (n : ℕ) :
    n ∈ parse_coverage_file ls p ↔ ∃ l ∈ ls, parseLine l = some (p, n) := by
  unfold parse_coverage_file
  rw [mem_foldl_record]
  simp [emptyRecord]

/-- A successfully parsed digit run is below `2 ^ 32`. -/
lemma parseU32Digits_lt (s : Str) (n : ℕ) (h : parseU32Digits s = some n) :
    n < 2 ^ 32 := by
  unfold parseU32Digits at h
  split at h
  · split at h
    · exact (Option.some.inj h) ▸ (by assumption)
    · exact absurd h (by simp)
  · exact absurd h (by simp)

/-- A successfully parsed `u32` is below `2 ^ 32`. -/
lemma parseU32_lt (s : Str) (n : ℕ) (h : parseU32 s = some n) : n < 2 ^ 32 := by
  unfold parseU32 at h
  split at h
  · exact parseU32Digits_lt _ _ h
  · exact parseU32Digits_lt _ _ h

/-- Every fact produced by `parseLine` carries a `u32`-ranged line number. -/
lemma parseLine_num_lt (l p : Str) (n : ℕ) (h : parseLine l = some (p, n)) :
    n < 2 ^ 32 := by
  unfold parseLine at h
  split at h
  · exact absurd h (by simp)
  · split at h
    · rcases hu : parseU32 (trimStr _) with _ | k
      · rw [hu] at h
        exact absurd h (by simp)
      · rw [hu] at h
        simp only [Option.some.injEq, Prod.mk.injEq] at h
        exact h.2 ▸ parseU32_lt _ _ hu
    · exact absurd h (by simp)

/-- C4 (parse tolerance): parsing is a total function over the input lines
(the run cannot fail on line content), and the resulting `CoverageRecord`
holds exactly the `(path, line)` facts of the lines `parseLine` accepts —
malformed lines (wrong segment count, non-numeric number) and blank lines
contribute nothing, and repeated entries for a path accumulate into the one
set at that path. -/
theorem parse_tolerance (ls : List Str) (p : Str) (n : ℕ) :
    n ∈ parse_coverage_file ls p ↔ ∃ l ∈ ls, parseLine l = some (p, n) :=
  mem_parse_coverage_file ls p n

/-- C10, counterexample: the parser accepts the line `a.c:0` and stores the
line number `0`, which is not positive — `u32` parsing admits zero. -/
theorem line_numbers_positive_cex :
    ¬ (∀ p n, n ∈ parse_coverage_file [toL "a.c:0"] p → 0 < n) :=
  fun h => absurd (h (toL "a.c") 0 (by decide)) (by decide)

/-- C10 as amended: every stored line number is a `u32` value (below
`2 ^ 32`; zero is accepted), and duplicate entries for the same
`(path, line)` collapse to one — appending a line already present leaves
the parsed record unchanged. -/
theorem line_number_range_and_dedup :
    (∀ ls p n, n ∈ parse_coverage_file ls p → n < 2 ^ 32) ∧
    (∀ ls l, l ∈ ls → parse_coverage_file (ls ++ [l]) = parse_coverage_file ls) := by
  constructor
  · intro ls p n hmem
    rcases (mem_parse_coverage_file ls p n).mp hmem with ⟨l, _, hl⟩
    exact parseLine_num_lt l p n hl
  · intro ls l hl
    funext p
    ext n
    rw [mem_parse_coverage_file, mem_parse_coverage_file]
    constructor
    · rintro ⟨l', hl', he⟩
      rcases List.mem_append.mp hl' with h' | h'
      · exact ⟨l', h', he⟩
      · exact ⟨l, (List.mem_singleton.mp h') ▸ hl, (List.mem_singleton.mp h') ▸ he⟩
    · rintro ⟨l', hl', he⟩
      exact ⟨l', List.mem_append.mpr (Or.inl hl'), he⟩

/-- Witness for the amended C10 at a concrete record. -/
theorem line_number_range_and_dedup_witness :
    7 < 2 ^ 32 ∧
      parse_coverage_file ([toL "a.c:7"] ++ [toL "a.c:7"]) =
        parse_coverage_file [toL "a.c:7"] :=
  ⟨line_number_range_and_dedup.1 [toL "a.c:7"] (toL "a.c") 7 (by decide),
   line_number_range_and_dedup.2 [toL "a.c:7"] (toL "a.c:7") (by simp)⟩

/-- C1 (aggregation correctness): for a processed file with source text
`content` (so `T = total_lines` is its `lines()` count) and covered-line
set built by inserting the elements of a list, the emitted statistics have
`covered_count = |C|` and `coverage_pct = 100 * |C| / T` when `T > 0` and
`0` when `T = 0`; and the whole `FileStat` is independent of the insertion
order of the covered set. -/
theorem aggregation_correct (path content : Str) (l₁ l₂ : List ℕ)
    (hperm : l₁.Perm l₂) :
    mkFileStat path content l₁.toFinset = mkFileStat path content l₂.toFinset ∧
    (mkFileStat path content l₁.toFinset).covered_count = l₁.toFinset.card ∧
    (mkFileStat path content l₁.toFinset).coverage_pct =
      (if 0 < (rustLines content).length then
        100 * (l₁.toFinset.card : ℚ) / ((rustLines content).length : ℚ)
      else 0) := by
  refine ⟨by rw [List.toFinset_eq_of_perm l₁ l₂ hperm], rfl, ?_⟩
  show (if 0 < (rustLines content).length then
      ((l₁.toFinset.card : ℚ) / ((rustLines content).length : ℚ)) * 100
    else 0) = _
  split
  · ring
  · rfl

/-- Witness for C1: a two-line file with covered set inserted in two
different orders. -/
theorem aggregation_correct_witness :
    ([3, 1, 3] : List ℕ).Perm [1, 3, 3] ∧
    (mkFileStat (toL "a.c") (toL "ab\ncd") [3, 1, 3].toFinset =
        mkFileStat (toL "a.c") (toL "ab\ncd") [1, 3, 3].toFinset ∧
      (mkFileStat (toL "a.c") (toL "ab\ncd") [3, 1, 3].toFinset).covered_count =
        ([3, 1, 3] : List ℕ).toFinset.card ∧
      (mkFileStat (toL "a.c") (toL "ab\ncd") [3, 1, 3].toFinset).coverage_pct =
        (if 0 < (rustLines (toL "ab\ncd")).length then
          100 * (([3, 1, 3] : List ℕ).toFinset.card : ℚ) /
            ((rustLines (toL "ab\ncd")).length : ℚ)
        else 0)) :=
  ⟨by decide, aggregation_correct (toL "a.c") (toL "ab\ncd") [3, 1, 3] [1, 3, 3] (by decide)⟩

/-- C3 (tier classification): the classification is `good` exactly on
`p ≥ 80`, `medium` exactly on `50 ≤ p < 80`, `bad` exactly on `p < 50`
(boundaries land in the higher tier), and the JavaScript copy used for the
per-file headers agrees with the Rust function used for the global summary
and sidebar badges at every percentage. -/
theorem tier_classification (p : ℚ) :
    (get_coverage_class p = "coverage-good" ↔ 80 ≤ p) ∧
    (get_coverage_class p = "coverage-medium" ↔ 50 ≤ p ∧ p < 80) ∧
    (get_coverage_class p = "coverage-bad" ↔ p < 50) ∧
    getCoverageClassJS p = get_coverage_class p := by
  unfold get_coverage_class getCoverageClassJS
  split_ifs with h1 h2
  · refine ⟨by simp [h1], ?_, ?_, rfl⟩
    · constructor
      · intro h
        exact absurd h (by decide)
      · rintro ⟨-, hlt⟩
        exact absurd h1 (not_le.mpr hlt)
    · constructor
      · intro h
        exact absurd h (by decide)
      · intro hlt
        exact absurd h1 (not_le.mpr (lt_of_lt_of_le hlt (by norm_num)))
  · refine ⟨?_, ?_, ?_, rfl⟩
    · constructor
      · intro h
        exact absurd h (by decide)
      · intro h
        exact absurd h h1
    · simp [h2, not_le.mp h1]
    · constructor
      · intro h
        exact absurd h (by decide)
      · intro hlt
        exact absurd h2 (not_le.mpr hlt)
  · refine ⟨?_, ?_, ?_, rfl⟩
    · constructor
      · intro h
        exact absurd h (by decide)
      · intro h
        exact absurd h h1
    · constructor
      · intro h
        exact absurd h (by decide)
      · rintro ⟨hge, -⟩
        exact absurd hge h2
    · simp [not_le.mp h2]

/-- Two lists that are permutations of each other, both sorted by a key
into a linear order, with no duplicate keys, are equal.  (Antisymmetry of
the key order replaces antisymmetry of the element relation.) -/
lemma eq_of_perm_of_sorted_nodupkeys {α β : Type*} [LinearOrder β] (key : α → β) :
    ∀ l₁ l₂ : List α, l₁.Perm l₂ →
      List.Sorted (fun a b => key a ≤ key b) l₁ →
      List.Sorted (fun a b => key a ≤ key b) l₂ →
      (l₁.map key).Nodup → l₁ = l₂ := by
  intro l₁
  induction l₁ with
  | nil =>
    intro l₂ hp _ _ _
    exact hp.nil_eq
  | cons a t ih =>
    intro l₂ hp hs₁ hs₂ hnd
    cases l₂ with
    | nil =>
      have := hp.mem_iff.mp (List.mem_cons_self a t)
      simp at this
    | cons b t₂ =>
      have hnd' : ¬ key a ∈ t.map key ∧ (t.map key).Nodup := by
        rw [List.map_cons, List.nodup_cons] at hnd
        exact hnd
      have hab : a = b := by
        have ha₂ : a ∈ b :: t₂ := hp.mem_iff.mp (List.mem_cons_self a t)
        have hb₁ : b ∈ a :: t := hp.mem_iff.mpr (List.mem_cons_self b t₂)
        rcases List.mem_cons.mp ha₂ with h | ha₂'
        · exact h
        rcases List.mem_cons.mp hb₁ with h | hb₁'
        · exact h.symm
        exfalso
        have h₁ : key a ≤ key b := (List.sorted_cons.mp hs₁).1 b hb₁'
        have h₂ : key b ≤ key a := (List.sorted_cons.mp hs₂).1 a ha₂'
        have hk : key a = key b := le_antisymm h₁ h₂
        exact hnd'.1 (hk ▸ List.mem_map_of_mem key hb₁')
      subst hab
      rw [ih t₂ hp.cons_inv (List.sorted_cons.mp hs₁).2
        (List.sorted_cons.mp hs₂).2 hnd'.2]

/-- C2 (tree ordering determinism): at any directory node of the rendered
tree, for any two presentations of the same child set (any insertion /
iteration order, with distinct file names, as distinct paths under one
parent guarantee), the rendered child sequence is identical; and it always
consists of the directories in sorted name order followed by the files in
sorted name order, covering the same directories and files the node holds.
This applies at every level, since every node is rendered by this one
function. -/
theorem tree_ordering_determinism (cp : Str) (l₁ l₂ : List (Str × ℕ × ℕ))
    (hperm : l₁.Perm l₂)
    (hnodup : ((fileEntriesOf l₁).map Prod.fst).Nodup) :
    renderOrder cp l₁ = renderOrder cp l₂ ∧
    ∃ (ds : List Str) (fs : List (Str × ℕ × ℕ)),
      renderOrder cp l₁ = ds.map Sum.inl ++ fs.map Sum.inr ∧
      List.Sorted (· ≤ ·) ds ∧ List.Sorted (· ≤ ·) (fs.map Prod.fst) ∧
      ds.Perm (dirNamesOf cp l₁) ∧ fs.Perm (fileEntriesOf l₁) := by
  constructor
  · unfold renderOrder
    have hd : (dirNamesOf cp l₁).Perm (dirNamesOf cp l₂) := hperm.filterMap _
    have hf : (fileEntriesOf l₁).Perm (fileEntriesOf l₂) := hperm.filterMap _
    have hdeq : (dirNamesOf cp l₁).insertionSort (· ≤ ·) =
        (dirNamesOf cp l₂).insertionSort (· ≤ ·) := by
      refine List.eq_of_perm_of_sorted ?_
        (List.sorted_insertionSort _ _) (List.sorted_insertionSort _ _)
      exact ((List.perm_insertionSort _ _).trans hd).trans
        (List.perm_insertionSort _ _).symm
    have hfeq : (fileEntriesOf l₁).insertionSort fileLe =
        (fileEntriesOf l₂).insertionSort fileLe := by
      refine eq_of_perm_of_sorted_nodupkeys Prod.fst _ _
        (((List.perm_insertionSort _ _).trans hf).trans
          (List.perm_insertionSort _ _).symm)
        (List.sorted_insertionSort _ _) (List.sorted_insertionSort _ _) ?_
      exact (((List.perm_insertionSort fileLe (fileEntriesOf l₁)).map
        Prod.fst).nodup_iff).mpr hnodup
    rw [hdeq, hfeq]
  · refine ⟨(dirNamesOf cp l₁).insertionSort (· ≤ ·),
      (fileEntriesOf l₁).insertionSort fileLe, rfl,
      List.sorted_insertionSort _ _, ?_, List.perm_insertionSort _ _,
      List.perm_insertionSort _ _⟩
    exact List.Pairwise.map Prod.fst (fun a b h => h)
      (List.sorted_insertionSort fileLe (fileEntriesOf l₁))

/-- Witness for C2: one directory child, two file children, presented in
two different orders. -/
theorem tree_ordering_determinism_witness :
    ([(toL "b.c", 1, 2), (toL "d", 0, 0), (toL "a.c", 2, 2)] :
        List (Str × ℕ × ℕ)).Perm
      [(toL "a.c", 2, 2), (toL "b.c", 1, 2), (toL "d", 0, 0)] ∧
    ((fileEntriesOf
        [(toL "b.c", 1, 2), (toL "d", 0, 0), (toL "a.c", 2, 2)]).map
      Prod.fst).Nodup ∧
    (renderOrder [] [(toL "b.c", 1, 2), (toL "d", 0, 0), (toL "a.c", 2, 2)] =
      renderOrder [] [(toL "a.c", 2, 2), (toL "b.c", 1, 2), (toL "d", 0, 0)] ∧
    ∃ (ds : List Str) (fs : List (Str × ℕ × ℕ)),
      renderOrder [] [(toL "b.c", 1, 2), (toL "d", 0, 0), (toL "a.c", 2, 2)] =
        ds.map Sum.inl ++ fs.map Sum.inr ∧
      List.Sorted (· ≤ ·) ds ∧ List.Sorted (· ≤ ·) (fs.map Prod.fst) ∧
      ds.Perm (dirNamesOf []
        [(toL "b.c", 1, 2), (toL "d", 0, 0), (toL "a.c", 2, 2)]) ∧
      fs.Perm (fileEntriesOf
        [(toL "b.c", 1, 2), (toL "d", 0, 0), (toL "a.c", 2, 2)])) :=
  ⟨by decide, by decide,
   tree_ordering_determinism [] _ _ (by decide) (by decide)⟩

/-- C7, counterexample: a flat-table child with `(covered, total) = (1, 0)`
— reachable for an existing but empty source file with one recorded covered
line — has a nonzero component, yet the renderer classifies it by
`total == 0` alone and emits it as a directory, not a file leaf. -/
theorem child_classification_cex :
    (1 : ℕ) ≠ 0 ∧
      renderOrder [] [(toL "a.c", 1, 0)] = [Sum.inl (toL "a.c")] := by
  exact ⟨by decide, by decide⟩

/-- C7 as amended: the renderer classifies a child as a file leaf exactly
when its `total` component is nonzero, and as a directory exactly when
`total = 0` (whatever `covered` is, and provided the name left after
removing the parent prefix has no `/`); "never directly assigned real
per-file numbers" is not consulted — it is not even representable in the
flat table. -/
theorem child_classification (cp : Str) (children : List (Str × ℕ × ℕ))
    (nm : Str) (cc tt : ℕ) :
    ((nm, cc, tt) ∈ fileEntriesOf children ↔
      ∃ p, (p, cc, tt) ∈ children ∧ tt ≠ 0 ∧ nm = lastSegment p) ∧
    (nm ∈ dirNamesOf cp children ↔
      ∃ p cv, (p, cv, 0) ∈ children ∧ nm = dirNameAt cp p ∧
        ¬('/' ∈ nm)) := by
  constructor
  · rw [fileEntriesOf, List.mem_filterMap]
    constructor
    · rintro ⟨⟨p, cv, t⟩, hmem, hf⟩
      by_cases ht : t = 0
      · rw [if_pos ht] at hf
        exact absurd hf (by simp)
      · rw [if_neg ht] at hf
        simp only [Option.some.injEq, Prod.mk.injEq] at hf
        refine ⟨p, ?_, ?_, hf.1.symm⟩
        · rw [← hf.2.1, ← hf.2.2]
          exact hmem
        · rw [← hf.2.2]
          exact ht
    · rintro ⟨p, hmem, htt, hnm⟩
      refine ⟨(p, cc, tt), hmem, ?_⟩
      rw [if_neg htt, hnm]
  · rw [dirNamesOf, List.mem_filterMap]
    constructor
    · rintro ⟨⟨p, cv, t⟩, hmem, hf⟩
      by_cases ht : t = 0
      · rw [if_pos ht] at hf
        by_cases hsl : (dirNameAt cp p).contains '/'
        · rw [if_pos hsl] at hf
          exact absurd hf (by simp)
        · rw [if_neg hsl] at hf
          simp only [Option.some.injEq] at hf
          refine ⟨p, cv, ht ▸ hmem, hf.symm, ?_⟩
          rw [← hf]
          simpa using hsl
      · rw [if_neg ht] at hf
        exact absurd hf (by simp)
    · rintro ⟨p, cv, hmem, hnm, hsl⟩
      refine ⟨(p, cv, 0), hmem, ?_⟩
      rw [if_pos rfl, if_neg (by simpa [hnm] using hsl), hnm]

/-- Every path of an emitted `FileStat` is the path of some input entry. -/
lemma processFiles_paths (fs : Str → Option Str) (root : Str)
    (entries : List (Str × Finset ℕ)) :
    ∀ st ∈ (processFiles fs root entries).1, st.path ∈ entries.map Prod.fst := by
  unfold processFiles
  suffices h : ∀ acc : List FileStat × ℕ × ℕ,
      ∀ st ∈ (entries.foldl
        (fun acc e =>
          match fs (fullPath root e.1) with
          | none => acc
          | some content =>
            let st := mkFileStat e.1 content e.2
            (acc.1 ++ [st], acc.2.1 + st.covered_count,
              acc.2.2 + st.total_lines)) acc).1,
        st ∈ acc.1 ∨ st.path ∈ entries.map Prod.fst by
    intro st hst
    rcases h ([], 0, 0) st hst with hin | hin
    · exact absurd hin (by simp)
    · exact hin
  induction entries with
  | nil =>
    intro acc st hst
    exact Or.inl hst
  | cons e t ih =>
    intro acc st hst
    rw [List.foldl_cons] at hst
    rcases hfs : fs (fullPath root e.1) with _ | content
    · rw [hfs] at hst
      rcases ih acc st hst with hin | hin
      · exact Or.inl hin
      · exact Or.inr (by simp [hin])
    · rw [hfs] at hst
      rcases ih _ st hst with hin | hin
      · rcases List.mem_append.mp hin with hin' | hin'
        · exact Or.inl hin'
        · refine Or.inr ?_
          rw [List.mem_singleton.mp hin']
          simp [mkFileStat]
      · exact Or.inr (by simp [hin])

/-- C5 (missing-file tolerance): when the source for a recorded path `p` is
absent or unreadable under the root, the run still completes and produces
exactly the `file_data`, per-file statistics and global totals it would
have produced had `p` not been recorded at all — so `p` contributes no
`FileStat`, nothing to the tree (which is built from the emitted stats),
and nothing to `(total_covered, total_lines)`; in particular no emitted
`FileStat` carries the path `p`. -/
theorem missing_file_tolerance (fs : Str → Option Str) (root p : Str)
    (cov : Finset ℕ) (l₁ l₂ : List (Str × Finset ℕ))
    (habs : fs (fullPath root p) = none)
    (hrest : p ∉ (l₁ ++ l₂).map Prod.fst) :
    processFiles fs root (l₁ ++ (p, cov) :: l₂) =
      processFiles fs root (l₁ ++ l₂) ∧
    p ∉ (processFiles fs root (l₁ ++ (p, cov) :: l₂)).1.map FileStat.path := by
  have heq : processFiles fs root (l₁ ++ (p, cov) :: l₂) =
      processFiles fs root (l₁ ++ l₂) := by
    unfold processFiles
    rw [List.foldl_append, List.foldl_append, List.foldl_cons, habs]
  refine ⟨heq, ?_⟩
  rw [heq]
  intro hmem
  rcases List.mem_map.mp hmem with ⟨st, hst, hpath⟩
  exact hrest (hpath ▸ processFiles_paths fs root (l₁ ++ l₂) st hst)

/-- Witness for C5: one readable file, one missing file. -/
theorem missing_file_tolerance_witness :
    ((fun q => if q = toL "r/a.c" then some (toL "x\ny") else none)
        (fullPath (toL "r") (toL "gone.c")) = none) ∧
    (toL "gone.c" ∉
      ([(toL "a.c", ({1} : Finset ℕ))] ++
        ([] : List (Str × Finset ℕ))).map Prod.fst) ∧
    (processFiles (fun q => if q = toL "r/a.c" then some (toL "x\ny") else none)
        (toL "r") ([(toL "a.c", {1})] ++ (toL "gone.c", {2}) :: []) =
      processFiles (fun q => if q = toL "r/a.c" then some (toL "x\ny") else none)
        (toL "r") ([(toL "a.c", {1})] ++ []) ∧
    toL "gone.c" ∉
      (processFiles (fun q => if q = toL "r/a.c" then some (toL "x\ny") else none)
        (toL "r") ([(toL "a.c", {1})] ++ (toL "gone.c", {2}) :: [])).1.map
        FileStat.path) :=
  ⟨by decide, by decide,
   missing_file_tolerance _ (toL "r") (toL "gone.c") {2} [(toL "a.c", {1})] []
     (by decide) (by decide)⟩

/-- C6, evaluation at the failing input: the source line
`</script><script>alert(1)</script>` passes through the embed-time escaping
unchanged — it contains no backslash and no double quote — so the literal
`</script>` sequence (and its `<`) lands raw inside the emitted script
element, where an HTML parser treats it as structural markup (closing the
script element).  The entity encoding that would neutralize it
(`displaySourceEncode`, which eliminates every raw `<`) exists only in the
viewer-side JavaScript and is not applied before embedding. -/
theorem embedded_source_escaping_gap :
    escapeForEmbedding (toL "</script><script>alert(1)</script>") =
      toL "</script><script>alert(1)</script>" ∧
    (toL "</script>") <:+:
      (escapeForEmbedding (toL "</script><script>alert(1)</script>")) ∧
    '<' ∈ escapeForEmbedding (toL "</script><script>alert(1)</script>") ∧
    '<' ∉ displaySourceEncode (toL "</script><script>alert(1)</script>") := by
  refine ⟨by decide, by decide, by decide, by decide⟩

/-- C8, counterexample: with the work directory fine and the coverage file
readable but the output artifact uncreatable, the run panics inside
`generate_combined_html` (via `expect`) instead of returning an I/O error
— no `Result` error value reaches `main`, so `main` prints no diagnostic
and the process aborts. -/
theorem output_failure_not_propagated_cex :
    generate_report_from_file ⟨true, some [], false, true⟩ (toL "out") =
      .panicked "Failed to create combined HTML file" ∧
    mainPrintsDiagnostic
      (generate_report_from_file ⟨true, some [], false, true⟩ (toL "out")) =
      false ∧
    processPanics
      (generate_report_from_file ⟨true, some [], false, true⟩ (toL "out")) =
      true := by
  refine ⟨by decide, by decide, by decide⟩

/-- C8 as amended: inability to create or write the output artifact is
fatal, but by a panic (process abort with the `expect` message), not by a
propagated `Result`; the error values that do reach `main`'s diagnostic
branch are exactly work-directory creation failure and coverage-file read
failure. -/
theorem output_failure_semantics (env : RunEnv) (wd : Str) :
    (generate_report_from_file env wd = .ioError ↔
      (env.workDirOk = false ∨ env.coverageLines = none)) ∧
    ((env.workDirOk = true ∧ env.coverageLines ≠ none ∧
        env.outputCreatable = false) ↔
      generate_report_from_file env wd =
        .panicked "Failed to create combined HTML file") ∧
    ((env.workDirOk = true ∧ env.coverageLines ≠ none ∧
        env.outputCreatable = true ∧ env.outputWritable = false) ↔
      generate_report_from_file env wd =
        .panicked "Failed to write HTML head") ∧
    ((env.workDirOk = true ∧ env.coverageLines ≠ none ∧
        env.outputCreatable = true ∧ env.outputWritable = true) ↔
      generate_report_from_file env wd =
        .ok (wd ++ toL "/coverage_report.html")) := by
  obtain ⟨w, cov, oc, ow⟩ := env
  cases w <;> cases oc <;> cases ow <;> rcases cov with _ | ls <;>
    simp [generate_report_from_file, generate_combined_html_outcome]

/-- The blocks of the artifact, unfolded. -/
lemma generateArtifact_blocks (fs : Str → Option Str) (root : Str)
    (entries : List (Str × List ℕ)) :
    (generateArtifact fs root entries).blocks =
      (entries.filterMap
        (fun e => (fs (fullPath root e.1)).map
          (fun content => (e.1, content, e.2)))).map
        (fun pe => mkFileBlock pe.1 pe.2.1 pe.2.2) := rfl

/-- The global covered total is the sum over the blocks. -/
lemma generateArtifact_totalCovered (fs : Str → Option Str) (root : Str)
    (entries : List (Str × List ℕ)) :
    (generateArtifact fs root entries).totalCovered =
      ((generateArtifact fs root entries).blocks.map FileBlock.coveredCount).sum :=
  rfl

/-- The global line total is the sum over the blocks. -/
lemma generateArtifact_totalLines (fs : Str → Option Str) (root : Str)
    (entries : List (Str × List ℕ)) :
    (generateArtifact fs root entries).totalLines =
      ((generateArtifact fs root entries).blocks.map FileBlock.totalLines).sum :=
  rfl

/-- The overall percentage is derived from the two totals. -/
lemma generateArtifact_overallPct (fs : Str → Option Str) (root : Str)
    (entries : List (Str × List ℕ)) :
    (generateArtifact fs root entries).overallPct =
      (if 0 < (generateArtifact fs root entries).totalLines then
        (((generateArtifact fs root entries).totalCovered : ℚ) /
          ((generateArtifact fs root entries).totalLines : ℚ)) * 100
      else 0) := rfl

/-- The summary tier class is derived from the overall percentage. -/
lemma generateArtifact_overallClass (fs : Str → Option Str) (root : Str)
    (entries : List (Str × List ℕ)) :
    (generateArtifact fs root entries).overallClass =
      get_coverage_class ((generateArtifact fs root entries).overallPct) := rfl

/-- The container ids are the blocks' ids in the same order. -/
lemma generateArtifact_containerIds (fs : Str → Option Str) (root : Str)
    (entries : List (Str × List ℕ)) :
    (generateArtifact fs root entries).containerIds =
      (generateArtifact fs root entries).blocks.map FileBlock.fileId := rfl

/-- C9, counterexample: the same coverage record (file `a.c` with covered
set `{1, 2}`) under two iteration orders of the covered-line `HashSet`
(which Rust does not fix across runs) yields two different artifacts — the
embedded `covered` array reads `[1, 2]` in one and `[2, 1]` in the other —
so two runs need not produce content-identical bytes. -/
theorem generation_not_order_independent_cex :
    generateArtifact oneFileFs (toL "r") [(toL "a.c", [1, 2])] ≠
      generateArtifact oneFileFs (toL "r") [(toL "a.c", [2, 1])] := by
  intro h
  have hc : (generateArtifact oneFileFs (toL "r")
      [(toL "a.c", [1, 2])]).blocks.map FileBlock.covered =
    (generateArtifact oneFileFs (toL "r")
      [(toL "a.c", [2, 1])]).blocks.map FileBlock.covered := by rw [h]
  have h1 : (generateArtifact oneFileFs (toL "r")
      [(toL "a.c", [1, 2])]).blocks.map FileBlock.covered = [[1, 2]] := rfl
  have h2 : (generateArtifact oneFileFs (toL "r")
      [(toL "a.c", [2, 1])]).blocks.map FileBlock.covered = [[2, 1]] := rfl
  rw [h1, h2] at hc
  exact absurd hc (by decide)

/-- C9 as amended: generation is a deterministic function of the coverage
record together with the iteration orders of the coverage map and of each
covered set; across permuted map iteration orders the global totals,
overall percentage and its tier class are identical, and the per-file
containers and data blocks are permutations of each other — the artifact is
content-identical up to that enumeration order, not byte-identical in
general. -/
theorem generation_deterministic_up_to_enumeration (fs : Str → Option Str)
    (root : Str) (e₁ e₂ : List (Str × List ℕ)) (hperm : e₁.Perm e₂) :
    (generateArtifact fs root e₁).totalCovered =
      (generateArtifact fs root e₂).totalCovered ∧
    (generateArtifact fs root e₁).totalLines =
      (generateArtifact fs root e₂).totalLines ∧
    (generateArtifact fs root e₁).overallPct =
      (generateArtifact fs root e₂).overallPct ∧
    (generateArtifact fs root e₁).overallClass =
      (generateArtifact fs root e₂).overallClass ∧
    (generateArtifact fs root e₁).containerIds.Perm
      (generateArtifact fs root e₂).containerIds ∧
    (generateArtifact fs root e₁).blocks.Perm
      (generateArtifact fs root e₂).blocks := by
  have hb : (generateArtifact fs root e₁).blocks.Perm
      (generateArtifact fs root e₂).blocks := by
    rw [generateArtifact_blocks, generateArtifact_blocks]
    exact (hperm.filterMap _).map _
  have htc : (generateArtifact fs root e₁).totalCovered =
      (generateArtifact fs root e₂).totalCovered := by
    rw [generateArtifact_totalCovered, generateArtifact_totalCovered]
    exact (hb.map FileBlock.coveredCount).sum_eq
  have htl : (generateArtifact fs root e₁).totalLines =
      (generateArtifact fs root e₂).totalLines := by
    rw [generateArtifact_totalLines, generateArtifact_totalLines]
    exact (hb.map FileBlock.totalLines).sum_eq
  have hpct : (generateArtifact fs root e₁).overallPct =
      (generateArtifact fs root e₂).overallPct := by
    rw [generateArtifact_overallPct, generateArtifact_overallPct, htc, htl]
  refine ⟨htc, htl, hpct, ?_, ?_, hb⟩
  · rw [generateArtifact_overallClass, generateArtifact_overallClass, hpct]
  · rw [generateArtifact_containerIds, generateArtifact_containerIds]
    exact hb.map _

/-- Witness for the amended C9: two files enumerated in both orders. -/
theorem generation_deterministic_up_to_enumeration_witness :
    ([(toL "a.c", [1]), (toL "b.c", [2])] :
        List (Str × List ℕ)).Perm [(toL "b.c", [2]), (toL "a.c", [1])] ∧
    (generateArtifact oneFileFs (toL "r")
        [(toL "a.c", [1]), (toL "b.c", [2])]).totalCovered =
      (generateArtifact oneFileFs (toL "r")
        [(toL "b.c", [2]), (toL "a.c", [1])]).totalCovered ∧
    (generateArtifact oneFileFs (toL "r")
        [(toL "a.c", [1]), (toL "b.c", [2])]).blocks.Perm
      (generateArtifact oneFileFs (toL "r")
        [(toL "b.c", [2]), (toL "a.c", [1])]).blocks :=
  ⟨by decide,
   (generation_deterministic_up_to_enumeration oneFileFs (toL "r")
     [(toL "a.c", [1]), (toL "b.c", [2])]
     [(toL "b.c", [2]), (toL "a.c", [1])] (by decide)).1,
   (generation_deterministic_up_to_enumeration oneFileFs (toL "r")
     [(toL "a.c", [1]), (toL "b.c", [2])]
     [(toL "b.c", [2]), (toL "a.c", [1])] (by decide)).2.2.2.2.2⟩
